import Mathlib

/-!
# Verification of the training orchestrator (`pyrad/engine/trainer.py`)

A shallow embedding of the `Trainer` class.  The step loop of `train()` is
modelled as the trace of observable events it emits (batch fetches, training
iterations, and the periodic side effects: metric logging, checkpoint saving,
viewer rendering, held-out evaluation, storage flushes).  Checkpoint loading
is modelled with an explicit filesystem map; `train_iteration` is modelled
parametrically over the opaque graph and optimizer states, so that its
ordering and state effects hold for every implementation of those components.

Machine integers of the source are modelled as `Nat` (step counters, cadence
divisors, ranks are nonnegative Python ints in this program); Python `None`
becomes `Option`; a Python exception becomes an `Except` result.  Python's
`x % 0` raises `ZeroDivisionError`, while `Nat.mod x 0 = x`; theorems that
quantify over all configurations therefore carry positivity hypotheses on the
two cadence divisors that the source uses unguarded (`steps_per_log`,
`steps_per_test`).
-/

namespace Pyrad

/-- The slice of the configuration object read by the `Trainer`
(`config.trainer.*`, `config.logging.steps_per_log`, `config.viewer.*`).
`steps_per_save` and `steps_per_render_image` are nullable in the source
(guarded by Python truthiness); `resume_load_dir` is the nullable
`config.trainer.resume_train.load_dir`. -/
structure Config where
  max_num_iterations : Nat
  steps_per_log : Nat
  steps_per_save : Option Nat
  steps_per_test : Nat
  viewer_enable : Bool
  steps_per_render_image : Option Nat
  resume_load_dir : Option String
  resume_load_step : Nat
  model_dir : String
deriving DecidableEq, Repr

/-- Observable events emitted by `Trainer.train`, each tagged with the step
at which it happens. -/
inductive Event where
  | fetchBatch (step : Nat)
  | trainIteration (step : Nat)
  | raysPerSec (step : Nat)
  | logMetrics (step : Nat)
  | saveCheckpoint (step : Nat)
  | renderInViewer (step : Nat)
  | evalRun (step : Nat)
  | flushStorage (step : Nat)
deriving DecidableEq, Repr

/-- The step an event is tagged with. -/
def eventStep : Event → Nat
  | .fetchBatch n => n
  | .trainIteration n => n
  | .raysPerSec n => n
  | .logMetrics n => n
  | .saveCheckpoint n => n
  | .renderInViewer n => n
  | .evalRun n => n
  | .flushStorage n => n

/-- The periodic side-effect events (those driven by the cadence checks),
as opposed to the per-step fetch/iteration/throughput events. -/
def isPeriodic : Event → Bool
  | .logMetrics _ => true
  | .saveCheckpoint _ => true
  | .renderInViewer _ => true
  | .evalRun _ => true
  | .flushStorage _ => true
  | _ => false

/-- `trainer.py` line 124: `step != 0 and step % steps_per_log == 0`. -/
def logDue (c : Config) (step : Nat) : Bool :=
  step != 0 && step % c.steps_per_log == 0

/-- `trainer.py` line 126:
`step != 0 and steps_per_save and step % steps_per_save == 0`
(Python truthiness: `None` and `0` both disable saving). -/
def saveDue (c : Config) (step : Nat) : Bool :=
  step != 0 &&
    (match c.steps_per_save with
     | none => false
     | some k => k != 0 && step % k == 0)

/-- `trainer.py` lines 128-133: `vis and step != 0 and steps_per_render_image
and step % steps_per_render_image == 0`. -/
def renderDue (c : Config) (step : Nat) : Bool :=
  c.viewer_enable && step != 0 &&
    (match c.steps_per_render_image with
     | none => false
     | some k => k != 0 && step % k == 0)

/-- `trainer.py` line 135: `step % steps_per_test == 0` (no `step != 0`
guard: evaluation fires at step 0). -/
def testDue (c : Config) (step : Nat) : Bool :=
  step % c.steps_per_test == 0

/-- The guard of `Trainer._write_out_storage` (`trainer.py` lines 147-152). -/
def write_out_storage_due (c : Config) (step : Nat) : Bool :=
  step % c.steps_per_log == 0
  || (match c.steps_per_save with
      | none => false
      | some k => k != 0 && step % k == 0)
  || step % c.steps_per_test == 0
  || step == c.max_num_iterations

/-- The events of one pass through the loop body of `Trainer.train`
(`trainer.py` lines 117-137), in source order: fetch the batch, run the
training iteration, record the throughput scalar, then the cadence-guarded
side effects in the order they appear in the source. -/
def stepEvents (c : Config) (step : Nat) : List Event :=
  [Event.fetchBatch step, Event.trainIteration step, Event.raysPerSec step]
  ++ (if logDue c step then [Event.logMetrics step] else [])
  ++ (if saveDue c step then [Event.saveCheckpoint step] else [])
  ++ (if renderDue c step then [Event.renderInViewer step] else [])
  ++ (if testDue c step then [Event.evalRun step] else [])
  ++ (if write_out_storage_due c step then [Event.flushStorage step] else [])

/-- `for step in range(start, start + n)` unrolled: the trace of `n`
consecutive loop-body passes starting at step `start`. -/
def loopTraceAux (c : Config) : Nat → Nat → List Event
  | _, 0 => []
  | start, n + 1 => stepEvents c start ++ loopTraceAux c (start + 1) n

/-- The trace of the step loop of `Trainer.train` (`trainer.py` line 116):
`for step in range(self.start_step, self.start_step + num_iterations)`. -/
def loopTrace (c : Config) (start_step : Nat) : List Event :=
  loopTraceAux c start_step c.max_num_iterations

/-- The full trace of `Trainer.train` (`trainer.py` lines 107-139): the step
loop followed by `self._write_out_storage(num_iterations)`, whose guard is
re-evaluated at `step = max_num_iterations`. -/
def train (c : Config) (start_step : Nat) : List Event :=
  loopTrace c start_step
  ++ (if write_out_storage_due c c.max_num_iterations
      then [Event.flushStorage c.max_num_iterations] else [])

/-- Extracts the step of a batch-fetch event. -/
def fetchedStep : Event → Option Nat
  | .fetchBatch n => some n
  | _ => none

/-- Extracts the step of a training-iteration event. -/
def iteratedStep : Event → Option Nat
  | .trainIteration n => some n
  | _ => none

/-- The due periodic actions at a step, listed in the fixed order the spec
prescribes (log → save → render → eval → flush).  This is the claim-side
description of §4.2 of the spec, to be compared with the trace the source
emits. -/
def dueList (c : Config) (step : Nat) : List Event :=
  (if logDue c step then [Event.logMetrics step] else [])
  ++ (if saveDue c step then [Event.saveCheckpoint step] else [])
  ++ (if renderDue c step then [Event.renderInViewer step] else [])
  ++ (if testDue c step then [Event.evalRun step] else [])
  ++ (if write_out_storage_due c step then [Event.flushStorage step] else [])

/-- A configuration used to instantiate the general theorems on concrete
inputs. -/
def witnessConfig : Config :=
  { max_num_iterations := 3
    steps_per_log := 2
    steps_per_save := none
    steps_per_test := 2
    viewer_enable := false
    steps_per_render_image := none
    resume_load_dir := none
    resume_load_step := 0
    model_dir := "models" }

section TraceLemmas

/-- A cadence-guarded singleton contributes nothing to a `filterMap` whose
extractor rejects its event. -/
theorem filterMap_guarded (f : Event → Option Nat) (b : Bool) (e : Event)
    (hf : f e = none) : List.filterMap f (if b then [e] else []) = [] := by
  cases b <;> simp [hf]

/-- Each loop-body pass contains exactly one batch fetch, at its own step. -/
theorem filterMap_fetchedStep_stepEvents (c : Config) (st : Nat) :
    (stepEvents c st).filterMap fetchedStep = [st] := by
  simp [stepEvents, List.filterMap_append, filterMap_guarded, fetchedStep]

/-- Each loop-body pass contains exactly one training iteration, at its own
step. -/
theorem filterMap_iteratedStep_stepEvents (c : Config) (st : Nat) :
    (stepEvents c st).filterMap iteratedStep = [st] := by
  simp [stepEvents, List.filterMap_append, filterMap_guarded, iteratedStep]

/-- The steps extracted from the unrolled loop are
`start, start+1, ..., start+n-1` in order, once each. -/
theorem filterMap_loopTraceAux (c : Config) (f : Event → Option Nat)
    (hf : ∀ st, (stepEvents c st).filterMap f = [st]) :
    ∀ n start, (loopTraceAux c start n).filterMap f
      = (List.range n).map (fun i => start + i)
  | 0, _ => by simp [loopTraceAux]
  | n + 1, start => by
      rw [loopTraceAux, List.filterMap_append, hf,
        filterMap_loopTraceAux c f hf n (start + 1), List.range_succ_eq_map]
      simp only [List.map_cons, List.map_map, Nat.add_zero, List.cons_append,
        List.nil_append, List.cons.injEq, true_and]
      apply List.map_congr_left
      intro i _
      simp [Function.comp]
      omega

/-- The batch fetch and the training iteration open every loop-body pass, in
that order. -/
theorem fetch_iter_prefix_stepEvents (c : Config) (st : Nat) :
    [Event.fetchBatch st, Event.trainIteration st].Sublist (stepEvents c st) := by
  refine List.IsPrefix.sublist ?_
  refine ⟨Event.raysPerSec st
      :: ((if logDue c st then [Event.logMetrics st] else [])
        ++ (if saveDue c st then [Event.saveCheckpoint st] else [])
        ++ (if renderDue c st then [Event.renderInViewer st] else [])
        ++ (if testDue c st then [Event.evalRun st] else [])
        ++ (if write_out_storage_due c st then [Event.flushStorage st] else [])), ?_⟩
  simp [stepEvents]

/-- Every in-range loop-body pass is a sublist of the unrolled loop. -/
theorem stepEvents_sublist_loopTraceAux (c : Config) :
    ∀ n start i, i < n →
      (stepEvents c (start + i)).Sublist (loopTraceAux c start n)
  | 0, _, i, h => absurd h (Nat.not_lt_zero i)
  | n + 1, start, 0, _ => by
      rw [loopTraceAux]
      simp only [Nat.add_zero]
      exact List.sublist_append_left (stepEvents c start) (loopTraceAux c (start + 1) n)
  | n + 1, start, i + 1, h => by
      rw [loopTraceAux]
      have hrec := stepEvents_sublist_loopTraceAux c n (start + 1) i
        (Nat.lt_of_succ_lt_succ h)
      have harith : start + (i + 1) = (start + 1) + i := by omega
      rw [harith]
      exact hrec.trans (List.sublist_append_right _ _)

end TraceLemmas

/-- **C1.** `train()` executes exactly the steps
`start_step .. start_step + max_num_iterations - 1`, in strictly increasing
order, each step exactly once: the fetched-batch steps and the
training-iteration steps of the trace are both exactly
`start_step, start_step+1, ...`, and at every step the single batch fetch
precedes the training iteration for that step.  (The positivity hypotheses
record that the source divides by `steps_per_log` and `steps_per_test`
unguarded, so a zero cadence would raise in Python.) -/
theorem train_executes_each_step_once (c : Config) (start_step : Nat)
    (_hlog : 0 < c.steps_per_log) (_htest : 0 < c.steps_per_test) :
    (train c start_step).filterMap fetchedStep
        = (List.range c.max_num_iterations).map (fun i => start_step + i)
    ∧ (train c start_step).filterMap iteratedStep
        = (List.range c.max_num_iterations).map (fun i => start_step + i)
    ∧ ∀ i, i < c.max_num_iterations →
        [Event.fetchBatch (start_step + i),
         Event.trainIteration (start_step + i)].Sublist (train c start_step) := by
  refine ⟨?_, ?_, ?_⟩
  · rw [train, List.filterMap_append,
      filterMap_guarded fetchedStep _ (Event.flushStorage c.max_num_iterations) rfl,
      List.append_nil]
    exact filterMap_loopTraceAux c fetchedStep
      (filterMap_fetchedStep_stepEvents c) c.max_num_iterations start_step
  · rw [train, List.filterMap_append,
      filterMap_guarded iteratedStep _ (Event.flushStorage c.max_num_iterations) rfl,
      List.append_nil]
    exact filterMap_loopTraceAux c iteratedStep
      (filterMap_iteratedStep_stepEvents c) c.max_num_iterations start_step
  · intro i hi
    refine ((fetch_iter_prefix_stepEvents c (start_step + i)).trans
      (stepEvents_sublist_loopTraceAux c c.max_num_iterations start_step i hi)).trans ?_
    rw [train]
    exact List.sublist_append_left _ _

/-- Witness for C1 at a concrete configuration and start step. -/
theorem train_executes_each_step_once_witness :
    (train witnessConfig 4).filterMap fetchedStep = [4, 5, 6] := by
  have h := train_executes_each_step_once witnessConfig 4 (by decide) (by decide)
  exact h.1.trans (by decide)

section FilterLemmas

/-- A cadence-guarded singleton whose event a filter keeps passes through
unchanged. -/
theorem filter_guarded_keep (p : Event → Bool) (b : Bool) (e : Event)
    (hp : p e = true) :
    List.filter p (if b then [e] else []) = (if b then [e] else []) := by
  cases b <;> simp [hp]

/-- Filtering one loop-body pass for the periodic actions of its own step
yields exactly the due actions, in the order the source performs them. -/
theorem filter_stepEvents_self (c : Config) (st : Nat) :
    (stepEvents c st).filter (fun e => isPeriodic e && eventStep e == st)
      = dueList c st := by
  rw [stepEvents, dueList]
  repeat rw [List.filter_append]
  rw [filter_guarded_keep _ _ (Event.logMetrics st) (by simp [isPeriodic, eventStep]),
    filter_guarded_keep _ _ (Event.saveCheckpoint st) (by simp [isPeriodic, eventStep]),
    filter_guarded_keep _ _ (Event.renderInViewer st) (by simp [isPeriodic, eventStep]),
    filter_guarded_keep _ _ (Event.evalRun st) (by simp [isPeriodic, eventStep]),
    filter_guarded_keep _ _ (Event.flushStorage st) (by simp [isPeriodic, eventStep])]
  simp [isPeriodic]

/-- A loop-body pass at a different step contributes no periodic action
tagged with step `st`. -/
theorem filter_stepEvents_ne (c : Config) (st u : Nat) (h : u ≠ st) :
    (stepEvents c u).filter (fun e => isPeriodic e && eventStep e == st) = [] := by
  have hu : (u == st) = false := by simp [h]
  rw [stepEvents]
  repeat rw [List.filter_append]
  cases hb : logDue c u <;> cases hb2 : saveDue c u <;> cases hb3 : renderDue c u <;>
    cases hb4 : testDue c u <;> cases hb5 : write_out_storage_due c u <;>
    simp [isPeriodic, eventStep, hu]

/-- Unrolled-loop passes strictly before `st` contribute no periodic action
tagged with `st`. -/
theorem filter_loopTraceAux_out (c : Config) (st : Nat) :
    ∀ n start, st < start →
      (loopTraceAux c start n).filter (fun e => isPeriodic e && eventStep e == st) = []
  | 0, _, _ => by simp [loopTraceAux]
  | n + 1, start, h => by
      rw [loopTraceAux, List.filter_append,
        filter_stepEvents_ne c st start (by omega),
        filter_loopTraceAux_out c st n (start + 1) (by omega)]
      simp

/-- Filtering the unrolled loop for the periodic actions of an in-range step
yields exactly that step's due actions, in source order. -/
theorem filter_loopTraceAux_in (c : Config) (st : Nat) :
    ∀ n start, start ≤ st → st < start + n →
      (loopTraceAux c start n).filter (fun e => isPeriodic e && eventStep e == st)
        = dueList c st
  | 0, start, hlo, hhi => by omega
  | n + 1, start, hlo, hhi => by
      rw [loopTraceAux, List.filter_append]
      by_cases hstart : start = st
      · subst hstart
        rw [filter_stepEvents_self c start,
          filter_loopTraceAux_out c start n (start + 1) (by omega)]
        simp
      · rw [filter_stepEvents_ne c st start hstart,
          filter_loopTraceAux_in c st n (start + 1) (by omega) (by omega)]
        simp

/-- The guard of the trailing `_write_out_storage(num_iterations)` call is
always true there, because `step == max_num_iterations` holds. -/
theorem write_out_storage_due_at_max (c : Config) :
    write_out_storage_due c c.max_num_iterations = true := by
  simp [write_out_storage_due]

end FilterLemmas

/-- **C2.** On every executed step, the periodic actions the loop performs at
that step — read off the trace in execution order — are exactly the due
actions in the fixed order: log metrics, save checkpoint, render in viewer,
run held-out evaluation, flush metric storage; and after the loop exits the
trace ends with one additional metric-storage flush at
`step = max_num_iterations`. -/
theorem periodic_actions_fixed_order (c : Config) (start_step : Nat)
    (_hlog : 0 < c.steps_per_log) (_htest : 0 < c.steps_per_test) :
    (∀ i, i < c.max_num_iterations →
        (loopTrace c start_step).filter
            (fun e => isPeriodic e && eventStep e == start_step + i)
          = dueList c (start_step + i))
    ∧ train c start_step
        = loopTrace c start_step ++ [Event.flushStorage c.max_num_iterations] := by
  constructor
  · intro i hi
    exact filter_loopTraceAux_in c (start_step + i) c.max_num_iterations start_step
      (by omega) (by omega)
  · rw [train, write_out_storage_due_at_max c]
    simp

/-- Witness for C2 at a concrete configuration: at step 2 the due actions
are logging, evaluation, and the storage flush, in that order. -/
theorem periodic_actions_fixed_order_witness :
    (loopTrace witnessConfig 0).filter (fun e => isPeriodic e && eventStep e == 2)
      = [Event.logMetrics 2, Event.evalRun 2, Event.flushStorage 2] := by
  have h := periodic_actions_fixed_order witnessConfig 0 (by decide) (by decide)
  exact (h.1 2 (by decide)).trans (by decide)

section FlushLemmas

/-- A storage-flush event appears among a step's due actions exactly when
the `_write_out_storage` guard holds. -/
theorem flush_mem_dueList (c : Config) (st : Nat) :
    Event.flushStorage st ∈ dueList c st ↔ write_out_storage_due c st = true := by
  rw [dueList]
  cases h1 : logDue c st <;> cases h2 : saveDue c st <;> cases h3 : renderDue c st <;>
    cases h4 : testDue c st <;> cases h5 : write_out_storage_due c st <;>
    simp [h1, h2, h3, h4, h5]

/-- The `_write_out_storage` guard coincides with
"LOG due, or SAVE due, or TEST due, or `step = max_num_iterations`":
at `step = 0` the guard's unguarded `step % steps_per_log == 0` disjunct is
true, but so is TEST (it has no `step != 0` exclusion), and at positive steps
the disjuncts agree literally. -/
theorem write_out_storage_due_iff (c : Config) (st : Nat) :
    write_out_storage_due c st = true ↔
      (logDue c st = true ∨ saveDue c st = true ∨ testDue c st = true
        ∨ st = c.max_num_iterations) := by
  rw [write_out_storage_due, logDue, saveDue, testDue]
  cases st with
  | zero => simp [Nat.zero_mod]
  | succ m =>
      cases c.steps_per_save with
      | none => simp [Nat.succ_ne_zero]; tauto
      | some k => simp [Nat.succ_ne_zero]; tauto

end FlushLemmas

/-- **C7.** For every step executed inside the loop, the metric-storage flush
runs at that step if and only if LOG is due, or SAVE is due, or TEST is due,
or the step equals `max_num_iterations`. -/
theorem storage_flush_iff_due (c : Config) (start_step : Nat)
    (_hlog : 0 < c.steps_per_log) (_htest : 0 < c.steps_per_test) :
    ∀ i, i < c.max_num_iterations →
      (Event.flushStorage (start_step + i) ∈ loopTrace c start_step ↔
        (logDue c (start_step + i) = true ∨ saveDue c (start_step + i) = true
          ∨ testDue c (start_step + i) = true
          ∨ start_step + i = c.max_num_iterations)) := by
  intro i hi
  have hfilter := filter_loopTraceAux_in c (start_step + i) c.max_num_iterations
    start_step (by omega) (by omega)
  have hmem : Event.flushStorage (start_step + i) ∈ loopTrace c start_step ↔
      Event.flushStorage (start_step + i) ∈ dueList c (start_step + i) := by
    rw [← hfilter]
    constructor
    · intro h
      exact List.mem_filter.mpr ⟨h, by simp [isPeriodic, eventStep]⟩
    · intro h
      exact (List.mem_filter.mp h).1
  rw [hmem, flush_mem_dueList c (start_step + i),
    write_out_storage_due_iff c (start_step + i)]

/-- Witness for C7: at step 2 of the witness configuration LOG is due, so
the flush event for step 2 is in the loop trace. -/
theorem storage_flush_iff_due_witness :
    Event.flushStorage 2 ∈ loopTrace witnessConfig 0 := by
  have h := storage_flush_iff_due witnessConfig 0 (by decide) (by decide) 2 (by decide)
  exact h.mpr (Or.inl (by decide))

/-- The concrete configuration of the scenario in §8 of the spec:
`max_num_iterations = 10`, `steps_per_log = 5`, `steps_per_save = None`,
`steps_per_test = 10`. -/
def scenarioConfig : Config :=
  { max_num_iterations := 10
    steps_per_log := 5
    steps_per_save := none
    steps_per_test := 10
    viewer_enable := false
    steps_per_render_image := none
    resume_load_dir := none
    resume_load_step := 0
    model_dir := "models" }

/-- Recognizes metric-log events. -/
def isLogEvent : Event → Bool
  | .logMetrics _ => true
  | _ => false

/-- Recognizes checkpoint-save events. -/
def isSaveEvent : Event → Bool
  | .saveCheckpoint _ => true
  | _ => false

/-- Recognizes held-out-evaluation events. -/
def isEvalEvent : Event → Bool
  | .evalRun _ => true
  | _ => false

/-- **C8.** In the scenario `max_num_iterations = 10`, `steps_per_log = 5`,
`steps_per_save = None`, `steps_per_test = 10`, starting from step 0: over
the executed steps 0..9, LOG fires only at step 5, SAVE never fires, the
held-out evaluation fires only at step 0; the TEST cadence is due at step 0
and again at step 10, where it coincides with the final unconditional
metric-storage flush that ends the trace after the loop. -/
theorem scenario_cadence :
    (train scenarioConfig 0).filter isLogEvent = [Event.logMetrics 5]
    ∧ (train scenarioConfig 0).filter isSaveEvent = []
    ∧ (train scenarioConfig 0).filter isEvalEvent = [Event.evalRun 0]
    ∧ testDue scenarioConfig 0 = true
    ∧ testDue scenarioConfig 10 = true
    ∧ train scenarioConfig 0 = loopTrace scenarioConfig 0 ++ [Event.flushStorage 10] := by
  decide

/-- A checkpoint snapshot as written by `Trainer._save_checkpoint`
(lines 178-185): the step plus opaque serialized model and optimizer blobs
(modelled as `Nat` codes keyed by optimizer name). -/
structure Checkpoint where
  step : Nat
  model : Nat
  optimizers : List (String × Nat)
deriving DecidableEq, Repr

/-- Left-pads a decimal string with zeros, as Python's `d:09d` format does. -/
def zeroPad (width : Nat) (s : String) : String :=
  String.mk (List.replicate (width - s.length) '0') ++ s

/-- The checkpoint path of line 158:
`os.path.join(load_dir, "step-" ++ zero-padded step ++ ".ckpt")`. -/
def checkpointPath (dir : String) (step : Nat) : String :=
  dir ++ "/" ++ "step-" ++ zeroPad 9 (toString step) ++ ".ckpt"

/-- The filesystem visible to the checkpoint store: a partial map from paths
to checkpoint files. -/
def FileSystem : Type := String → Option Checkpoint

/-- The orchestrator state the claims are about: the resumption cursor
`start_step` (line 66) and the compute device string (line 58). -/
structure TrainerState where
  start_step : Nat
  device : String
deriving DecidableEq, Repr

/-- `Trainer.__init__` (lines 54-78): `start_step = 0` and
`device = "cpu" if world_size == 0 else f"cuda:(local_rank)"`. -/
def Trainer.init (local_rank world_size : Nat) : TrainerState :=
  { start_step := 0
    device := if world_size == 0 then "cpu" else "cuda:" ++ toString local_rank }

/-- `Trainer._load_checkpoint` (lines 155-165): builds the checkpoint path
from the resume configuration, fails when no file exists there (the `assert
os.path.exists` — the failure the spec names `CheckpointNotFoundError`), and
otherwise sets `start_step = loaded_state.step + 1`.  Returns the loaded
checkpoint alongside the updated state. -/
def load_checkpoint (fs : FileSystem) (load_dir : String) (load_step : Nat)
    (st : TrainerState) : Except String (TrainerState × Checkpoint) :=
  let load_path := checkpointPath load_dir load_step
  match fs load_path with
  | none => .error ("Checkpoint " ++ load_path ++ " does not exist")
  | some loaded_state =>
      .ok ({ st with start_step := loaded_state.step + 1 }, loaded_state)

/-- The resume branch of `Trainer.setup` (lines 87-88):
`if self.config.trainer.resume_train.load_dir: self._load_checkpoint()`.
Python truthiness makes both `None` and the empty string skip loading.  The
dataset/graph/optimizer construction, distributed wrapping, and callback
registration of `setup` are opaque external calls that never touch
`start_step`.  Returns the state together with the checkpoint that was
loaded, if any. -/
def setup (c : Config) (fs : FileSystem) (st : TrainerState) :
    Except String (TrainerState × Option Checkpoint) :=
  match c.resume_load_dir with
  | none => .ok (st, none)
  | some d =>
      if d == "" then .ok (st, none)
      else
        match load_checkpoint fs d c.resume_load_step st with
        | .error e => .error e
        | .ok (st2, ck) => .ok (st2, some ck)

/-- `Trainer._save_checkpoint` (lines 167-185): writes the snapshot of the
given step at `output_dir/step-(step:09d).ckpt`. -/
def save_checkpoint (fs : FileSystem) (output_dir : String) (step : Nat)
    (model : Nat) (optimizers : List (String × Nat)) : FileSystem :=
  fun p => if p == checkpointPath output_dir step
    then some { step := step, model := model, optimizers := optimizers }
    else fs p

/-- A configuration that resumes from directory `"ckpts"` at step 5. -/
def resumeConfig : Config :=
  { max_num_iterations := 3
    steps_per_log := 2
    steps_per_save := none
    steps_per_test := 2
    viewer_enable := false
    steps_per_render_image := none
    resume_load_dir := some "ckpts"
    resume_load_step := 5
    model_dir := "models" }

/-- A filesystem with no checkpoint files. -/
def emptyFS : FileSystem := fun _ => none

/-- A filesystem holding exactly the step-5 checkpoint of `resumeConfig`. -/
def oneCkptFS : FileSystem := fun p =>
  if p == checkpointPath "ckpts" 5
  then some { step := 5, model := 17, optimizers := [("fields", 3)] }
  else none

/-- **C3.** When a resume directory is configured and the checkpoint file at
the configured step is absent from the filesystem, `setup` fails (the
`assert os.path.exists` raise the spec names `CheckpointNotFoundError`), so
the orchestrator does not start; when the file exists, loading sets
`start_step` to the stored checkpoint step plus one. -/
theorem resume_checkpoint_semantics (c : Config) (fs : FileSystem)
    (st : TrainerState) (d : String) (hd : c.resume_load_dir = some d)
    (hne : d ≠ "") :
    (fs (checkpointPath d c.resume_load_step) = none →
        setup c fs st
          = .error ("Checkpoint " ++ checkpointPath d c.resume_load_step
              ++ " does not exist"))
    ∧ (∀ ck, fs (checkpointPath d c.resume_load_step) = some ck →
        setup c fs st = .ok ({ st with start_step := ck.step + 1 }, some ck)) := by
  have hne2 : (d == "") = false := by simp [hne]
  constructor
  · intro hmiss
    simp [setup, hd, hne2, load_checkpoint, hmiss]
  · intro ck hhit
    simp [setup, hd, hne2, load_checkpoint, hhit]

/-- Witness for C3: with no checkpoint file on disk the resume setup fails;
the same call with the file present succeeds with `start_step = 6`. -/
theorem resume_checkpoint_semantics_witness :
    setup resumeConfig emptyFS (Trainer.init 0 1)
        = .error ("Checkpoint " ++ checkpointPath "ckpts" 5 ++ " does not exist")
    ∧ setup resumeConfig oneCkptFS (Trainer.init 0 1)
        = .ok ({ start_step := 6, device := "cuda:" ++ toString 0 },
            some { step := 5, model := 17, optimizers := [("fields", 3)] }) := by
  constructor
  · exact (resume_checkpoint_semantics resumeConfig emptyFS (Trainer.init 0 1)
      "ckpts" rfl (by decide)).1 rfl
  · have h := (resume_checkpoint_semantics resumeConfig oneCkptFS (Trainer.init 0 1)
      "ckpts" rfl (by decide)).2
      { step := 5, model := 17, optimizers := [("fields", 3)] } rfl
    exact h.trans rfl

/-- **C5.** The `start_step` invariant: the constructor sets `start_step = 0`;
after `setup`, `start_step` equals `1 + the loaded checkpoint's step` when a
checkpoint was loaded and remains `0` when none was.  (No other embedded
operation produces a `TrainerState`, so nothing else modifies
`start_step`.) -/
theorem start_step_invariant (c : Config) (fs : FileSystem)
    (local_rank world_size : Nat) :
    (Trainer.init local_rank world_size).start_step = 0
    ∧ (∀ st ck, setup c fs (Trainer.init local_rank world_size) = .ok (st, some ck) →
        st.start_step = ck.step + 1)
    ∧ (∀ st, setup c fs (Trainer.init local_rank world_size) = .ok (st, none) →
        st.start_step = 0) := by
  refine ⟨rfl, ?_, ?_⟩
  · intro st ck h
    cases hd : c.resume_load_dir with
    | none => simp [setup, hd] at h
    | some d =>
        by_cases he : d = ""
        · simp [setup, hd, he] at h
        · have he2 : (d == "") = false := by simp [he]
          cases hfs : fs (checkpointPath d c.resume_load_step) with
          | none => simp [setup, hd, he2, load_checkpoint, hfs] at h
          | some ld =>
              simp [setup, hd, he2, load_checkpoint, hfs] at h
              obtain ⟨h1, h2⟩ := h
              subst h1
              subst h2
              rfl
  · intro st h
    cases hd : c.resume_load_dir with
    | none =>
        simp [setup, hd] at h
        subst h
        rfl
    | some d =>
        by_cases he : d = ""
        · simp [setup, hd, he] at h
          subst h
          rfl
        · have he2 : (d == "") = false := by simp [he]
          cases hfs : fs (checkpointPath d c.resume_load_step) with
          | none => simp [setup, hd, he2, load_checkpoint, hfs] at h
          | some ld => simp [setup, hd, he2, load_checkpoint, hfs] at h

/-- Witness for C5: a resumed setup applied through the invariant. -/
theorem start_step_invariant_witness :
    ({ start_step := 6, device := "cuda:" ++ toString 0 } : TrainerState).start_step
      = ({ step := 5, model := 17, optimizers := [("fields", 3)] } : Checkpoint).step + 1 := by
  refine (start_step_invariant resumeConfig oneCkptFS 0 1).2.1
    { start_step := 6, device := "cuda:" ++ toString 0 }
    { step := 5, model := 17, optimizers := [("fields", 3)] } ?_
  rfl

/-- **C10.** The constructor selects `"cpu"` exactly when `world_size = 0`;
for every `world_size ≥ 1` (including the non-distributed `world_size = 1`)
the device is `"cuda:" ++ local_rank`. -/
theorem device_selection (local_rank world_size : Nat) :
    ((Trainer.init local_rank world_size).device = "cpu" ↔ world_size = 0)
    ∧ (1 ≤ world_size →
        (Trainer.init local_rank world_size).device = "cuda:" ++ toString local_rank) := by
  constructor
  · cases world_size with
    | zero => simp [Trainer.init]
    | succ m =>
        simp only [Trainer.init]
        constructor
        · intro h
          rw [if_neg (by simp)] at h
          have hlen := congrArg String.length h
          rw [String.length_append] at hlen
          have h5 : ("cuda:" : String).length = 5 := rfl
          have h3 : ("cpu" : String).length = 3 := rfl
          rw [h5, h3] at hlen
          omega
        · intro h
          exact absurd h (Nat.succ_ne_zero m)
  · intro h
    cases world_size with
    | zero => omega
    | succ m => simp [Trainer.init]

/-- Witness for C10: `world_size = 1` selects `cuda:0`, not `cpu`. -/
theorem device_selection_witness :
    (Trainer.init 0 1).device = "cuda:" ++ toString 0 :=
  (device_selection 0 1).2 (by decide)

/-- Loss dictionaries: finite maps from loss-term names to scalar values
(tensor scalars modelled as `Int` codes), as association lists. -/
abbrev LossDict := List (String × Int)

/-- The calls `train_iteration` makes on the graph and optimizer collection,
in the order they appear in the trace. -/
inductive IterEvent where
  | forwardPass
  | zeroGrad
  | backwardPass
  | optimizerStep
  | schedulerStep (step : Nat)
  | callbackRun (idx : Nat) (step : Nat)
deriving DecidableEq, Repr

/-- The outcome of one `train_iteration`: final graph state, final optimizer
state, the calls made, and the returned loss dictionary (or the propagated
`KeyError`). -/
structure IterResult (G O : Type) where
  graph : G
  optimizers : O
  events : List IterEvent
  ret : Except String LossDict
deriving Repr

/-- `Trainer.train_iteration` (lines 187-208), parametric over the opaque
graph state `G` and optimizer-collection state `O` and over the external
operations the source delegates to: `graph.forward` (producing the loss
dictionary), `loss.backward`, `optimizers.zero_grad_all`,
`optimizers.optimizer_step_all`, `optimizers.scheduler_step_all(step)`, and
the registered `graph.callbacks` (each invoked as `after_step(step)`).  The
lookup `loss_dict["aggregated_loss"]` (line 200) happens before any
optimizer call; a missing key is the propagated `KeyError`.  The
`if self.graph.callbacks:` guard of line 205 is kept literally. -/
def train_iteration {G O : Type}
    (forward : G → G × LossDict)
    (backward : Int → G → G)
    (zero_grad_all : O → O)
    (optimizer_step_all : O → O)
    (scheduler_step_all : Nat → O → O)
    (callbacks : List (Nat → G → G))
    (g : G) (o : O) (step : Nat) : IterResult G O :=
  let fwd := forward g
  let loss_dict := fwd.2
  match List.lookup "aggregated_loss" loss_dict with
  | none => ⟨fwd.1, o, [IterEvent.forwardPass], .error "KeyError: aggregated_loss"⟩
  | some loss =>
      let o1 := zero_grad_all o
      let g1 := backward loss fwd.1
      let o2 := optimizer_step_all o1
      let o3 := scheduler_step_all step o2
      let g2 := if callbacks.isEmpty then g1
                else callbacks.foldl (fun gx f => f step gx) g1
      ⟨g2, o3,
        [IterEvent.forwardPass, IterEvent.zeroGrad, IterEvent.backwardPass,
         IterEvent.optimizerStep, IterEvent.schedulerStep step]
          ++ (List.range callbacks.length).map (fun k => IterEvent.callbackRun k step),
        .ok loss_dict⟩

/-- **C4.** For every batch and step (and every implementation of the opaque
graph/optimizer operations): when the forward pass's loss dictionary has an
`aggregated_loss` entry, `train_iteration` performs, in order, the forward
pass, `zero_grad_all`, backpropagation through `aggregated_loss`,
`optimizer_step_all`, `scheduler_step_all` applied to the global `step`
value, and every registered callback with the current step — the final
optimizer state is the composition `scheduler_step_all step ∘
optimizer_step_all ∘ zero_grad_all`, the final graph state is the callback
fold over the backward-updated graph — and it returns the loss dictionary
unchanged. -/
theorem train_iteration_contract {G O : Type}
    (forward : G → G × LossDict) (backward : Int → G → G)
    (zero_grad_all : O → O) (optimizer_step_all : O → O)
    (scheduler_step_all : Nat → O → O) (callbacks : List (Nat → G → G))
    (g : G) (o : O) (step : Nat) (loss : Int)
    (h : List.lookup "aggregated_loss" (forward g).2 = some loss) :
    train_iteration forward backward zero_grad_all optimizer_step_all
        scheduler_step_all callbacks g o step
      = { graph := callbacks.foldl (fun gx f => f step gx)
              (backward loss (forward g).1)
          optimizers := scheduler_step_all step (optimizer_step_all (zero_grad_all o))
          events := [IterEvent.forwardPass, IterEvent.zeroGrad,
              IterEvent.backwardPass, IterEvent.optimizerStep,
              IterEvent.schedulerStep step]
            ++ (List.range callbacks.length).map (fun k => IterEvent.callbackRun k step)
          ret := .ok (forward g).2 } := by
  rw [train_iteration]
  simp only [h]
  cases callbacks <;> simp [List.isEmpty]

/-- **C9.** For every batch whose forward pass returns a loss dictionary
without the key `aggregated_loss` (and every implementation of the opaque
operations), `train_iteration` propagates a key-lookup error with only the
forward pass performed: no `zero_grad_all`, `optimizer_step_all`,
`scheduler_step_all`, or callback call appears in the trace, and the
optimizer state returned is exactly the input state. -/
theorem train_iteration_missing_key {G O : Type}
    (forward : G → G × LossDict) (backward : Int → G → G)
    (zero_grad_all : O → O) (optimizer_step_all : O → O)
    (scheduler_step_all : Nat → O → O) (callbacks : List (Nat → G → G))
    (g : G) (o : O) (step : Nat)
    (h : List.lookup "aggregated_loss" (forward g).2 = none) :
    train_iteration forward backward zero_grad_all optimizer_step_all
        scheduler_step_all callbacks g o step
      = { graph := (forward g).1
          optimizers := o
          events := [IterEvent.forwardPass]
          ret := .error "KeyError: aggregated_loss" } := by
  rw [train_iteration]
  simp only [h]

/-- Concrete graph/optimizer instantiations for the `train_iteration`
witnesses: states are call logs. -/
def demoLossDict : LossDict := [("rgb_loss", 3), ("aggregated_loss", 7)]

/-- A forward pass producing `demoLossDict`. -/
def demoForward (g : List String) : List String × LossDict :=
  (g ++ ["forward"], demoLossDict)

/-- A forward pass whose loss dictionary lacks `aggregated_loss`. -/
def demoForwardBad (g : List String) : List String × LossDict :=
  (g ++ ["forward"], [("rgb_loss", 3)])

/-- Logs the backward call. -/
def demoBackward (v : Int) (g : List String) : List String :=
  g ++ ["backward " ++ toString v]

/-- Logs the zero-grad call. -/
def demoZeroGrad (o : List String) : List String :=
  o ++ ["zero_grad_all"]

/-- Logs the optimizer-step call. -/
def demoOptStep (o : List String) : List String :=
  o ++ ["optimizer_step_all"]

/-- Logs the scheduler-step call with its step argument. -/
def demoSchedStep (s : Nat) (o : List String) : List String :=
  o ++ ["scheduler_step_all " ++ toString s]

/-- One registered callback logging its step argument. -/
def demoCallbacks : List (Nat → List String → List String) :=
  [fun s g => g ++ ["after_step " ++ toString s]]

/-- Witness for C4 at concrete components, batch and step. -/
theorem train_iteration_contract_witness :
    train_iteration demoForward demoBackward demoZeroGrad demoOptStep
        demoSchedStep demoCallbacks [] [] 4
      = { graph := demoCallbacks.foldl (fun gx f => f 4 gx)
              (demoBackward 7 (demoForward []).1)
          optimizers := demoSchedStep 4 (demoOptStep (demoZeroGrad []))
          events := [IterEvent.forwardPass, IterEvent.zeroGrad,
              IterEvent.backwardPass, IterEvent.optimizerStep,
              IterEvent.schedulerStep 4]
            ++ (List.range demoCallbacks.length).map (fun k => IterEvent.callbackRun k 4)
          ret := .ok (demoForward []).2 } :=
  train_iteration_contract demoForward demoBackward demoZeroGrad demoOptStep
    demoSchedStep demoCallbacks [] [] 4 7 rfl

/-- Witness for C9: with the `aggregated_loss` entry absent the call returns
the `KeyError`, the unchanged optimizer log, and only the forward event. -/
theorem train_iteration_missing_key_witness :
    train_iteration demoForwardBad demoBackward demoZeroGrad demoOptStep
        demoSchedStep demoCallbacks [] ["untouched"] 4
      = { graph := (demoForwardBad []).1
          optimizers := ["untouched"]
          events := [IterEvent.forwardPass]
          ret := .error "KeyError: aggregated_loss" } :=
  train_iteration_missing_key demoForwardBad demoBackward demoZeroGrad demoOptStep
    demoSchedStep demoCallbacks [] ["untouched"] 4 rfl

/-- The model's mode flag, toggled by `graph.train()` / `graph.eval()`. -/
inductive Mode where
  | training
  | evaluation
deriving DecidableEq, Repr

/-- `Trainer.test_image` (lines 210-227), with the two model calls that can
raise during scoring (`get_outputs_for_camera_ray_bundle`,
`log_test_image_outputs`) abstracted into one fallible scoring outcome per
image.  The source sets evaluation mode, scores, then calls `graph.train()`;
there is no try/finally, so a raise inside scoring propagates before the
mode is restored. -/
def test_image (score : Except String Int) (_m : Mode) : Mode × Except String Int :=
  let m1 := Mode.evaluation
  match score with
  | .error e => (m1, .error e)
  | .ok psnr => (Mode.training, .ok psnr)

/-- `Trainer.eval_with_dataloader` (lines 283-291): iterates the evaluation
dataloader, scoring each image via `test_image`; an exception from
`test_image` propagates out of the loop.  The dataloader items are
abstracted to their scoring outcomes; the returned `Mode` is the model's
mode when the call returns or raises. -/
def eval_with_dataloader (scores : List (Except String Int)) (m : Mode) :
    Mode × Except String Unit :=
  match scores with
  | [] => (m, .ok ())
  | s :: rest =>
      match test_image s m with
      | (m1, .error e) => (m1, .error e)
      | (m1, .ok _) => eval_with_dataloader rest m1

/-- **C6** evaluated on the code: on an empty dataloader the mode is left as
it was (training stays training), and a fully successful evaluation ends in
training mode — but when per-image scoring raises, `eval_with_dataloader`
propagates the exception with the model still in evaluation mode, because
`test_image` has no scoped restoration of training mode.  The first
conjunct is the failing input refuting the claim's "including when
per-image scoring fails partway" guarantee. -/
theorem eval_mode_after_failure :
    eval_with_dataloader [Except.error "scoring raised"] Mode.training
      = (Mode.evaluation, Except.error "scoring raised")
    ∧ (∀ m, eval_with_dataloader [] m = (m, Except.ok ()))
    ∧ (∀ v m, eval_with_dataloader [Except.ok v] m
        = (Mode.training, Except.ok ())) := by
  refine ⟨rfl, fun m => rfl, fun v m => rfl⟩

end Pyrad
